import Mathlib

/-!
Shallow embedding of the encore-temporal-go billing system.

Source layout mirrored here:
- `currency` : internal/currency/currency.go (currency codes and parsing)
- `account`  : account/handler.go (in-memory ledger with Withdraw)
- `billing`  : billing/billing.go (Bill aggregate), billing/workflow.go
  (event loop and charging-phase resolution), billing/activities.go.

Go `int64` amounts are modelled as `Int`; the claims under study never
exercise two's-complement wrap-around. Go methods that mutate a
pointer receiver and return an `error` are modelled as functions
returning the updated value paired with an `Option` error: an error
result pairs with the unchanged input value, exactly as the Go code
returns before mutating.
-/

namespace currency

/-- Currency codes from internal/currency/currency.go (USD, EUR, GEL). -/
inductive Currency
  | USD
  | EUR
  | GEL
deriving DecidableEq, Repr

/-- Function `Parse` from currency.go: upper-cases the input and accepts exactly
the supported codes, anything else is an error. -/
def Parse (raw : String) : Except String Currency :=
  let s := raw.toUpper
  if s = "USD" then .ok .USD
  else if s = "EUR" then .ok .EUR
  else if s = "GEL" then .ok .GEL
  else .error ("unsupported currency " ++ raw)

end currency

namespace billing

open currency

/-- Line-item statuses from billing.go. -/
inductive LineItemStatus
  | ItemPending
  | ItemCharged
  | ItemFailed
  | ItemCanceled
  | ItemRefunded
deriving DecidableEq, Repr

/-- Bill statuses from billing.go. -/
inductive BillStatus
  | BillOpen
  | BillCharging
  | BillSettled
  | BillCanceled
  | BillExpired
  | BillFailed
  | BillCompensated
deriving DecidableEq, Repr

open LineItemStatus BillStatus

/-- The `LineItem` struct from billing.go. -/
structure LineItem where
  ID : String
  Name : String
  Amount : Int
  Status : LineItemStatus
deriving DecidableEq, Repr

/-- The `Bill` struct from billing.go (final version, with ID and currency). -/
structure Bill where
  ID : String
  Status : BillStatus
  Cur : currency.Currency
  Items : List LineItem
  Total : Int
deriving DecidableEq, Repr

/-- The error values of billing.go (ErrBillNotOpen, ErrCannotCancel,
ErrNoPendingItems, ErrDuplicateItem). -/
inductive BillErr
  | NotOpen
  | CannotCancel
  | NoPendingItems
  | DuplicateItem (id : String)
deriving DecidableEq, Repr

/-- Method `AddItem` of `*Bill` from billing.go: rejects when not Open, rejects a
duplicate identifier, otherwise appends the item with status forced to
Pending and adds its amount to the total. -/
def Bill.AddItem (b : Bill) (li : LineItem) : Bill × Option BillErr :=
  if b.Status ≠ BillOpen then (b, some .NotOpen)
  else if b.Items.any (fun it => it.ID == li.ID) then (b, some (.DuplicateItem li.ID))
  else ({ b with
          Items := b.Items ++ [{ li with Status := ItemPending }],
          Total := b.Total + li.Amount }, none)

/-- Method `PendingCount` of `*Bill` from billing.go. -/
def Bill.PendingCount (b : Bill) : Nat :=
  b.Items.countP (fun it => it.Status == ItemPending)

/-- Method `BeginCharge` of `*Bill` from billing.go: rejects when not Open, rejects
when no item is Pending, otherwise sets status Charging. -/
def Bill.BeginCharge (b : Bill) : Bill × Option BillErr :=
  if b.Status ≠ BillOpen then (b, some .NotOpen)
  else if b.PendingCount = 0 then (b, some .NoPendingItems)
  else ({ b with Status := BillCharging }, none)

/-- The per-item body of the loops in `Cancel` and `Expire` (billing.go):
a Pending item becomes Canceled, any other item is untouched. -/
def cancelPending (it : LineItem) : LineItem :=
  if it.Status = ItemPending then { it with Status := ItemCanceled } else it

/-- Method `Cancel` of `*Bill` from billing.go: rejects when not Open, otherwise
sets status Canceled and turns every Pending item Canceled. -/
def Bill.Cancel (b : Bill) : Bill × Option BillErr :=
  if b.Status ≠ BillOpen then (b, some .CannotCancel)
  else ({ b with Status := BillCanceled, Items := b.Items.map cancelPending }, none)

/-- Method `Expire` of `*Bill` from billing.go: unconditionally sets status Expired
and turns every Pending item Canceled. -/
def Bill.Expire (b : Bill) : Bill :=
  { b with Status := BillExpired, Items := b.Items.map cancelPending }

/-- Sum of the amounts of a list of line items; used to state the
spec's gross-total invariant `total == sum of amount over all items`. -/
def sumAmounts (items : List LineItem) : Int :=
  (items.map (·.Amount)).sum

/-- The bill created at the top of `BillWorkflow` (workflow.go):
`&Bill{ID: billID, Status: BillOpen, Currency: cur}`; items nil, total 0. -/
def initialBill (billID : String) (cur : currency.Currency) : Bill :=
  { ID := billID, Status := BillOpen, Cur := cur, Items := [], Total := 0 }

/-- The stimuli of the Open-phase event loop in `BillWorkflow`
(workflow.go): the three signal channels and the deadline timer future. -/
inductive Signal
  | AddLineItem (li : LineItem)
  | ChargeBill
  | CancelBill
  | TimerFired
deriving DecidableEq, Repr

/-- The loop-local state of `BillWorkflow`'s Open phase: the bill owned by
the loop, and whether the deadline timer is still armed (`cancelTimer`
has not been called). -/
structure LoopState where
  bill : Bill
  timerActive : Bool
deriving DecidableEq, Repr

/-- One iteration of the `for bill.Status == BillOpen` select loop of
`BillWorkflow` (workflow.go). The loop only runs — hence only processes
a stimulus — while the bill is Open; a stimulus arriving once the loop
has exited changes nothing. Add-item, charge and cancel apply the
aggregate operation and ignore failures; successful charge or cancel
calls `cancelTimer()`; the timer future fires `Expire` only if the
timer is still armed. -/
def loopStep (s : LoopState) (e : Signal) : LoopState :=
  if s.bill.Status = BillOpen then
    match e with
    | .AddLineItem li => { s with bill := (s.bill.AddItem li).1 }
    | .ChargeBill =>
        let r := s.bill.BeginCharge
        if r.2.isSome then s else { bill := r.1, timerActive := false }
    | .CancelBill =>
        let r := s.bill.Cancel
        if r.2.isSome then s else { bill := r.1, timerActive := false }
    | .TimerFired =>
        if s.timerActive then { s with bill := s.bill.Expire } else s
  else s

/-- Whether a loop iteration on state `s` processing stimulus `e` invokes
`bill.Expire()` (the body of the `AddFuture(timer, ...)` callback in
workflow.go). -/
def expireInvoked (s : LoopState) (e : Signal) : Bool :=
  match e with
  | .TimerFired => (s.bill.Status == BillOpen) && s.timerActive
  | _ => false

/-- Activity `ChargeLineItemActivity` (activities.go) as a success predicate: the
simulated charge fails exactly when the item's name is "FAIL"; since the
activity is deterministic, retrying (≤ 5 attempts) does not change the
final outcome. -/
def ChargeLineItemActivity (li : LineItem) : Bool :=
  if li.Name = "FAIL" then false else true

/-- The per-item body of the charge fan-out in `BillWorkflow`
(workflow.go): a Pending item becomes Charged when its charge activity
ultimately succeeds and Failed when the retries are exhausted; items not
Pending are skipped (`continue`). `chargeOk` abstracts the terminal
outcome of `ExecuteActivity(ChargeLineItemActivity, item)` after the
retry policy. -/
def chargeItem (chargeOk : LineItem → Bool) (it : LineItem) : LineItem :=
  if it.Status = ItemPending then
    if chargeOk it then { it with Status := ItemCharged }
    else { it with Status := ItemFailed }
  else it

/-- The charge fan-out of `BillWorkflow`: one task per Pending item, each
task writing only its own item, joined by `chargeWG.Wait` before the
resolution step reads anything — so the joint effect is the per-item map. -/
def chargeFanout (chargeOk : LineItem → Bool) (items : List LineItem) : List LineItem :=
  items.map (chargeItem chargeOk)

/-- The per-item body of the refund fan-out in `BillWorkflow`: a Charged
item is refunded (`RefundLineItemActivity`, which never fails) and
becomes Refunded; other items are untouched. -/
def refundCharged (it : LineItem) : LineItem :=
  if it.Status = ItemCharged then { it with Status := ItemRefunded } else it

/-- The refund fan-out of `BillWorkflow`: one task per Charged item,
joined by `refundWG.Wait`. -/
def refundFanout (items : List LineItem) : List LineItem :=
  items.map refundCharged

/-- Model of `temporal.NewApplicationError(msg, kind, details)` as returned by the
charging resolution: the error kind ("ChargeFailed" or
"ChargeCompensated") and the `failedIDs` details slice. -/
structure ApplicationError where
  kind : String
  details : List String
deriving DecidableEq, Repr

/-- Everything observable about the `case BillCharging` arm of
`BillWorkflow`: the final bill, the workflow's returned error, and the
activity calls issued (charge fan-out inputs, refund fan-out inputs, and
`CreditAccountActivity` invocations with their amount and currency). -/
structure ChargingOutcome where
  bill : Bill
  err : Option ApplicationError
  chargedItems : List LineItem
  refundedItems : List LineItem
  credits : List (Int × currency.Currency)
deriving DecidableEq, Repr

/-- The `case BillCharging` arm of `BillWorkflow` (workflow.go): fan out
charges over Pending items and join; count Failed; then
- all failed: bill status Failed, return a "ChargeFailed" application
  error whose details are the IDs of all items;
- none failed: bill status Settled, then fire `CreditAccountActivity`
  for the bill's total and currency, discarding its error (`_ =`), so
  the outcome does not depend on `creditOk`;
- otherwise: fan out refunds over Charged items and join, bill status
  Compensated, return a "ChargeCompensated" application error whose
  details are the IDs of the items still Failed after the refunds. -/
def runChargingPhase (chargeOk : LineItem → Bool) (creditOk : Bool)
    (bill : Bill) : ChargingOutcome :=
  let attempted := bill.Items.filter (fun it => it.Status == ItemPending)
  let items := chargeFanout chargeOk bill.Items
  let failedCount := items.countP (fun it => it.Status == ItemFailed)
  let totalItems := items.length
  if failedCount = totalItems then
    { bill := { bill with Items := items, Status := BillFailed },
      err := some { kind := "ChargeFailed", details := items.map (·.ID) },
      chargedItems := attempted,
      refundedItems := [],
      credits := [] }
  else if failedCount = 0 then
    { bill := { bill with Items := items, Status := BillSettled },
      err := none,
      chargedItems := attempted,
      refundedItems := [],
      credits := [(bill.Total, bill.Cur)] }
  else
    let items2 := refundFanout items
    { bill := { bill with Items := items2, Status := BillCompensated },
      err := some { kind := "ChargeCompensated",
                    details := (items2.filter (fun it => it.Status == ItemFailed)).map (·.ID) },
      chargedItems := attempted,
      refundedItems := items.filter (fun it => it.Status == ItemCharged),
      credits := [] }

end billing

namespace account

open currency

/-- The error codes used by account/handler.go (`errs.Error.Code`). -/
inductive ErrCode
  | InvalidArgument
  | FailedPrecondition
deriving DecidableEq, Repr

/-- Endpoint `Withdraw` from account/handler.go: parse the path currency, reject a
non-positive amount, reject when the balance of that currency is below
the amount, otherwise subtract the amount from that balance. The ledger
is the `balances` map (missing keys read as 0, modelled as a total
function into `Int`); the returned pair is the ledger after the call and
the error. -/
def Withdraw (balances : Currency → Int) (curr : String) (amount : Int) :
    (Currency → Int) × Option ErrCode :=
  match Parse curr with
  | .error _ => (balances, some .InvalidArgument)
  | .ok reqCur =>
    if amount ≤ 0 then (balances, some .InvalidArgument)
    else if balances reqCur < amount then (balances, some .FailedPrecondition)
    else (fun c => if c = reqCur then balances reqCur - amount else balances c, none)

end account

namespace billing

open LineItemStatus BillStatus

lemma addItem_status (b : Bill) (li : LineItem) : (b.AddItem li).1.Status = b.Status := by
  unfold Bill.AddItem
  split
  · rfl
  · split <;> rfl

lemma addItem_total_ge (b : Bill) (li : LineItem) (h : 0 ≤ li.Amount) :
    b.Total ≤ (b.AddItem li).1.Total := by
  unfold Bill.AddItem
  split
  · exact le_refl _
  · split
    · exact le_refl _
    · simpa using h

lemma cancelPending_amount (it : LineItem) : (cancelPending it).Amount = it.Amount := by
  unfold cancelPending
  split <;> rfl

lemma chargeItem_amount (chargeOk : LineItem → Bool) (it : LineItem) :
    (chargeItem chargeOk it).Amount = it.Amount := by
  unfold chargeItem
  split
  · split <;> rfl
  · rfl

lemma refundCharged_amount (it : LineItem) : (refundCharged it).Amount = it.Amount := by
  unfold refundCharged
  split <;> rfl

lemma sumAmounts_map (f : LineItem → LineItem) (hf : ∀ it, (f it).Amount = it.Amount) :
    ∀ l : List LineItem, sumAmounts (l.map f) = sumAmounts l := by
  intro l
  induction l with
  | nil => rfl
  | cons x xs ih =>
    simp only [List.map_cons, sumAmounts, List.sum_cons] at *
    rw [hf x, ih]

lemma sumAmounts_append (l₁ l₂ : List LineItem) :
    sumAmounts (l₁ ++ l₂) = sumAmounts l₁ + sumAmounts l₂ := by
  simp [sumAmounts]

/-- C5. `AddItem` fails with NotOpen when the bill is not Open, fails with
DuplicateItem when the identifier is already present — both failures
returning the bill unchanged — and otherwise appends the item with
status Pending and increases the total by exactly the item's amount. -/
theorem addItem_spec (b : Bill) (li : LineItem) :
    (b.Status ≠ BillOpen → b.AddItem li = (b, some .NotOpen)) ∧
    (b.Status = BillOpen → (∃ it ∈ b.Items, it.ID = li.ID) →
      b.AddItem li = (b, some (.DuplicateItem li.ID))) ∧
    (b.Status = BillOpen → (∀ it ∈ b.Items, it.ID ≠ li.ID) →
      b.AddItem li =
        ({ b with Items := b.Items ++ [{ li with Status := ItemPending }],
                  Total := b.Total + li.Amount }, none)) := by
  refine ⟨?_, ?_, ?_⟩
  · intro h
    simp [Bill.AddItem, h]
  · rintro hopen ⟨it, hmem, hid⟩
    have hany : b.Items.any (fun x => x.ID == li.ID) = true :=
      List.any_eq_true.mpr ⟨it, hmem, by simp [hid]⟩
    simp [Bill.AddItem, hopen, hany]
  · intro hopen hnodup
    have hany : b.Items.any (fun x => x.ID == li.ID) = false := by
      simp only [List.any_eq_false]
      intro it hmem
      simpa using hnodup it hmem
    simp [Bill.AddItem, hopen, hany]

/-- Witness for C5: on a fresh open bill the add succeeds, stores the
item as Pending and bumps the total by its amount. -/
theorem addItem_spec_witness :
    (initialBill "b1" currency.Currency.USD).Status = BillOpen ∧
    (∀ it ∈ (initialBill "b1" currency.Currency.USD).Items, it.ID ≠ "a1") ∧
    (initialBill "b1" currency.Currency.USD).AddItem ⟨"a1", "Book", 1500, ItemCharged⟩ =
      ({ initialBill "b1" currency.Currency.USD with
          Items := [⟨"a1", "Book", 1500, ItemPending⟩], Total := 1500 }, none) := by
  refine ⟨by decide, by decide, ?_⟩
  have h := (addItem_spec (initialBill "b1" currency.Currency.USD)
      ⟨"a1", "Book", 1500, ItemCharged⟩).2.2 (by decide) (by decide)
  simpa using h

/-- C6. `BeginCharge` fails with NotOpen when the bill is not Open, fails
with NoPendingItems when no item is Pending (status stays Open, nothing
changes), and otherwise sets the status Charging; in every case the
items and the total are untouched. -/
theorem beginCharge_spec (b : Bill) :
    (b.Status ≠ BillOpen → b.BeginCharge = (b, some .NotOpen)) ∧
    (b.Status = BillOpen → b.PendingCount = 0 →
      b.BeginCharge = (b, some .NoPendingItems)) ∧
    (b.Status = BillOpen → b.PendingCount ≠ 0 →
      b.BeginCharge = ({ b with Status := BillCharging }, none)) ∧
    (b.BeginCharge).1.Items = b.Items ∧
    (b.BeginCharge).1.Total = b.Total := by
  refine ⟨?_, ?_, ?_, ?_, ?_⟩ <;>
    first
      | (intro h₁ h₂; simp [Bill.BeginCharge, h₁, h₂])
      | (intro h₁; simp [Bill.BeginCharge, h₁])
      | (unfold Bill.BeginCharge; split
         · rfl
         · split <;> rfl)

/-- Witness for C6: a bill with one Pending item begins charging; a fresh
empty bill is rejected with NoPendingItems and left Open. -/
theorem beginCharge_spec_witness :
    ((initialBill "b2" currency.Currency.EUR).Status = BillOpen ∧
      (initialBill "b2" currency.Currency.EUR).PendingCount = 0 ∧
      (initialBill "b2" currency.Currency.EUR).BeginCharge =
        (initialBill "b2" currency.Currency.EUR, some .NoPendingItems)) ∧
    (Bill.mk "b3" BillOpen currency.Currency.USD [⟨"a1", "Book", 5, ItemPending⟩] 5).Status
        = BillOpen ∧
    (Bill.mk "b3" BillOpen currency.Currency.USD [⟨"a1", "Book", 5, ItemPending⟩] 5).PendingCount
        ≠ 0 ∧
    (Bill.mk "b3" BillOpen currency.Currency.USD [⟨"a1", "Book", 5, ItemPending⟩] 5).BeginCharge =
      (Bill.mk "b3" BillCharging currency.Currency.USD [⟨"a1", "Book", 5, ItemPending⟩] 5,
        none) := by
  refine ⟨⟨by decide, by decide, ?_⟩, by decide, by decide, ?_⟩
  · exact (beginCharge_spec (initialBill "b2" currency.Currency.EUR)).2.1 (by decide) (by decide)
  · have h := (beginCharge_spec
        (Bill.mk "b3" BillOpen currency.Currency.USD [⟨"a1", "Book", 5, ItemPending⟩] 5)).2.2.1
        (by decide) (by decide)
    simpa using h

/-- C7. `Cancel` fails with CannotCancel when the bill is not Open and
changes nothing; on an Open bill it sets status Canceled and maps every
item through `cancelPending`, which turns a Pending item Canceled and
leaves any other item untouched; order and total are preserved. -/
theorem cancel_spec (b : Bill) :
    (b.Status ≠ BillOpen → b.Cancel = (b, some .CannotCancel)) ∧
    (b.Status = BillOpen →
      (b.Cancel).2 = none ∧
      (b.Cancel).1.Status = BillCanceled ∧
      (b.Cancel).1.Items = b.Items.map cancelPending ∧
      (b.Cancel).1.Total = b.Total) ∧
    (∀ it, it.Status = ItemPending → cancelPending it = { it with Status := ItemCanceled }) ∧
    (∀ it, it.Status ≠ ItemPending → cancelPending it = it) := by
  refine ⟨?_, ?_, ?_, ?_⟩
  · intro h
    simp [Bill.Cancel, h]
  · intro h
    simp [Bill.Cancel, h]
  · intro it h
    simp [cancelPending, h]
  · intro it h
    simp [cancelPending, h]

/-- Witness for C7: canceling an Open bill holding a Pending and a
Charged item cancels only the Pending one and keeps the total. -/
theorem cancel_spec_witness :
    (Bill.mk "b4" BillOpen currency.Currency.GEL
        [⟨"A", "x", 3, ItemPending⟩, ⟨"B", "y", 4, ItemCharged⟩] 7).Status = BillOpen ∧
    ((Bill.mk "b4" BillOpen currency.Currency.GEL
        [⟨"A", "x", 3, ItemPending⟩, ⟨"B", "y", 4, ItemCharged⟩] 7).Cancel.2 = none ∧
      (Bill.mk "b4" BillOpen currency.Currency.GEL
        [⟨"A", "x", 3, ItemPending⟩, ⟨"B", "y", 4, ItemCharged⟩] 7).Cancel.1.Status
          = BillCanceled ∧
      (Bill.mk "b4" BillOpen currency.Currency.GEL
        [⟨"A", "x", 3, ItemPending⟩, ⟨"B", "y", 4, ItemCharged⟩] 7).Cancel.1.Items =
        [⟨"A", "x", 3, ItemPending⟩, ⟨"B", "y", 4, ItemCharged⟩].map cancelPending ∧
      (Bill.mk "b4" BillOpen currency.Currency.GEL
        [⟨"A", "x", 3, ItemPending⟩, ⟨"B", "y", 4, ItemCharged⟩] 7).Cancel.1.Total = 7) :=
  ⟨by decide,
    (cancel_spec (Bill.mk "b4" BillOpen currency.Currency.GEL
      [⟨"A", "x", 3, ItemPending⟩, ⟨"B", "y", 4, ItemCharged⟩] 7)).2.1 (by decide)⟩

lemma beginCharge_fields (b : Bill) :
    (b.BeginCharge).1.Items = b.Items ∧ (b.BeginCharge).1.Total = b.Total := by
  unfold Bill.BeginCharge
  split
  · exact ⟨rfl, rfl⟩
  · split <;> exact ⟨rfl, rfl⟩

lemma cancel_fields (b : Bill) :
    ((b.Cancel).1.Items = b.Items ∨ (b.Cancel).1.Items = b.Items.map cancelPending) ∧
    (b.Cancel).1.Total = b.Total := by
  unfold Bill.Cancel
  split
  · exact ⟨Or.inl rfl, rfl⟩
  · exact ⟨Or.inr rfl, rfl⟩

lemma runChargingPhase_bill_fields (chargeOk : LineItem → Bool) (creditOk : Bool) (b : Bill) :
    ((runChargingPhase chargeOk creditOk b).bill.Items = chargeFanout chargeOk b.Items ∨
      (runChargingPhase chargeOk creditOk b).bill.Items
        = refundFanout (chargeFanout chargeOk b.Items)) ∧
    (runChargingPhase chargeOk creditOk b).bill.Total = b.Total := by
  simp only [runChargingPhase]
  split
  · exact ⟨Or.inl rfl, rfl⟩
  · split
    · exact ⟨Or.inl rfl, rfl⟩
    · exact ⟨Or.inr rfl, rfl⟩

lemma sumAmounts_chargeFanout (chargeOk : LineItem → Bool) (l : List LineItem) :
    sumAmounts (chargeFanout chargeOk l) = sumAmounts l :=
  sumAmounts_map (chargeItem chargeOk) (chargeItem_amount chargeOk) l

lemma sumAmounts_refundFanout (l : List LineItem) :
    sumAmounts (refundFanout l) = sumAmounts l :=
  sumAmounts_map refundCharged refundCharged_amount l

/-- C4. The running total always equals the sum of the amounts of the
items ever accepted (items are never removed, so that is the current
item list); the invariant is preserved by every operation, the total is
non-decreasing under `AddItem` for a non-negative amount (the request
layer admits only positive amounts), and `BeginCharge`, `Cancel`,
`Expire` and the whole charging/refund resolution leave the total
exactly unchanged. -/
theorem total_gross_invariant (b : Bill) (li : LineItem)
    (chargeOk : LineItem → Bool) (creditOk : Bool) :
    (b.Total = sumAmounts b.Items →
      ((b.AddItem li).1.Total = sumAmounts (b.AddItem li).1.Items ∧
        (b.BeginCharge).1.Total = sumAmounts (b.BeginCharge).1.Items ∧
        (b.Cancel).1.Total = sumAmounts (b.Cancel).1.Items ∧
        b.Expire.Total = sumAmounts b.Expire.Items ∧
        (runChargingPhase chargeOk creditOk b).bill.Total
          = sumAmounts (runChargingPhase chargeOk creditOk b).bill.Items)) ∧
    (0 ≤ li.Amount → b.Total ≤ (b.AddItem li).1.Total) ∧
    (b.BeginCharge).1.Total = b.Total ∧
    (b.Cancel).1.Total = b.Total ∧
    b.Expire.Total = b.Total ∧
    (runChargingPhase chargeOk creditOk b).bill.Total = b.Total := by
  have hsum : sumAmounts (b.Items.map cancelPending) = sumAmounts b.Items :=
    sumAmounts_map cancelPending cancelPending_amount b.Items
  refine ⟨?_, addItem_total_ge b li, (beginCharge_fields b).2, (cancel_fields b).2, rfl,
    (runChargingPhase_bill_fields chargeOk creditOk b).2⟩
  intro hinv
  refine ⟨?_, ?_, ?_, ?_, ?_⟩
  · unfold Bill.AddItem
    split
    · exact hinv
    · split
      · exact hinv
      · simp only
        rw [sumAmounts_append, hinv]
        simp [sumAmounts]
  · rw [(beginCharge_fields b).1, (beginCharge_fields b).2, hinv]
  · rcases (cancel_fields b).1 with h | h <;>
      rw [h, (cancel_fields b).2, hinv] <;> simp [hsum]
  · show b.Total = sumAmounts (b.Items.map cancelPending)
    rw [hsum, hinv]
  · rcases (runChargingPhase_bill_fields chargeOk creditOk b).1 with h | h <;>
      rw [h, (runChargingPhase_bill_fields chargeOk creditOk b).2, hinv] <;>
      simp [sumAmounts_chargeFanout, sumAmounts_refundFanout]

/-- Witness for C4: on a one-item bill whose invariant holds, every
operation keeps total = sum of amounts, and the total never decreases. -/
theorem total_gross_invariant_witness :
    (Bill.mk "b5" BillOpen currency.Currency.USD [⟨"A", "x", 3, ItemPending⟩] 3).Total
      = sumAmounts (Bill.mk "b5" BillOpen currency.Currency.USD
          [⟨"A", "x", 3, ItemPending⟩] 3).Items ∧
    (0 : Int) ≤ (4 : Int) ∧
    ((Bill.mk "b5" BillOpen currency.Currency.USD [⟨"A", "x", 3, ItemPending⟩] 3).AddItem
        ⟨"B", "y", 4, ItemPending⟩).1.Total =
      sumAmounts ((Bill.mk "b5" BillOpen currency.Currency.USD
        [⟨"A", "x", 3, ItemPending⟩] 3).AddItem ⟨"B", "y", 4, ItemPending⟩).1.Items ∧
    (Bill.mk "b5" BillOpen currency.Currency.USD [⟨"A", "x", 3, ItemPending⟩] 3).Total ≤
      ((Bill.mk "b5" BillOpen currency.Currency.USD [⟨"A", "x", 3, ItemPending⟩] 3).AddItem
        ⟨"B", "y", 4, ItemPending⟩).1.Total ∧
    (runChargingPhase ChargeLineItemActivity true
      (Bill.mk "b5" BillOpen currency.Currency.USD [⟨"A", "x", 3, ItemPending⟩] 3)).bill.Total
      = 3 := by
  have h := total_gross_invariant
    (Bill.mk "b5" BillOpen currency.Currency.USD [⟨"A", "x", 3, ItemPending⟩] 3)
    ⟨"B", "y", 4, ItemPending⟩ ChargeLineItemActivity true
  exact ⟨by decide, by decide, (h.1 (by decide)).1, h.2.1 (by decide),
    by rw [h.2.2.2.2.2]⟩

lemma chargeItem_id (chargeOk : LineItem → Bool) (it : LineItem) :
    (chargeItem chargeOk it).ID = it.ID := by
  unfold chargeItem
  split
  · split <;> rfl
  · rfl

lemma chargeFanout_ids (chargeOk : LineItem → Bool) (l : List LineItem) :
    (chargeFanout chargeOk l).map (·.ID) = l.map (·.ID) := by
  unfold chargeFanout
  rw [List.map_map]
  exact List.map_congr_left (fun it _ => chargeItem_id chargeOk it)

lemma refundCharged_not_charged (it : LineItem) :
    (refundCharged it).Status ≠ ItemCharged := by
  unfold refundCharged
  split
  · simp
  · simpa using by assumption

lemma filter_failed_refundFanout (l : List LineItem) :
    (refundFanout l).filter (fun it => it.Status == ItemFailed)
      = l.filter (fun it => it.Status == ItemFailed) := by
  induction l with
  | nil => rfl
  | cons x xs ih =>
    simp only [refundFanout, List.map_cons, List.filter_cons] at *
    by_cases hx : x.Status = ItemCharged
    · simp [refundCharged, hx, ih]
    · simp [refundCharged, hx, ih]

/-- C1. Partial failure: when the charge fan-out leaves at least one item
Failed and at least one Charged, the resolution refunds exactly the
Charged items (each becoming Refunded, so no Charged item remains), sets
the bill status Compensated, issues no credit, and returns a
"ChargeCompensated" error whose details are the IDs of exactly the items
that failed the charge — not the refunded ones. -/
theorem partial_failure_compensates (b : Bill) (chargeOk : LineItem → Bool) (creditOk : Bool)
    (hfail : ∃ it ∈ chargeFanout chargeOk b.Items, it.Status = ItemFailed)
    (hch : ∃ it ∈ chargeFanout chargeOk b.Items, it.Status = ItemCharged) :
    (runChargingPhase chargeOk creditOk b).bill.Status = BillCompensated ∧
    (runChargingPhase chargeOk creditOk b).bill.Items
      = refundFanout (chargeFanout chargeOk b.Items) ∧
    (runChargingPhase chargeOk creditOk b).refundedItems
      = (chargeFanout chargeOk b.Items).filter (fun it => it.Status == ItemCharged) ∧
    (∀ it, it.Status = ItemCharged →
      refundCharged it = { it with Status := ItemRefunded }) ∧
    (∀ it ∈ (runChargingPhase chargeOk creditOk b).bill.Items, it.Status ≠ ItemCharged) ∧
    (runChargingPhase chargeOk creditOk b).err =
      some { kind := "ChargeCompensated",
             details := ((chargeFanout chargeOk b.Items).filter
               (fun it => it.Status == ItemFailed)).map (·.ID) } ∧
    (runChargingPhase chargeOk creditOk b).credits = [] := by
  obtain ⟨itF, hmF, hsF⟩ := hfail
  obtain ⟨itC, hmC, hsC⟩ := hch
  have hpos : 0 < (chargeFanout chargeOk b.Items).countP (fun it => it.Status == ItemFailed) :=
    List.countP_pos_iff.mpr ⟨itF, hmF, by simp [hsF]⟩
  have hne : (chargeFanout chargeOk b.Items).countP (fun it => it.Status == ItemFailed)
      ≠ (chargeFanout chargeOk b.Items).length := by
    intro h
    have := List.countP_eq_length.mp h itC hmC
    simp [hsC] at this
  have hnz : (chargeFanout chargeOk b.Items).countP (fun it => it.Status == ItemFailed) ≠ 0 :=
    Nat.pos_iff_ne_zero.mp hpos
  simp only [runChargingPhase, if_neg hne, if_neg hnz]
  refine ⟨trivial, trivial, trivial, ?_, ?_, ?_, trivial⟩
  · intro it h
    simp [refundCharged, h]
  · intro it hmem
    simp only [refundFanout, List.mem_map] at hmem
    obtain ⟨x, _, hx⟩ := hmem
    rw [← hx]
    exact refundCharged_not_charged x
  · rw [filter_failed_refundFanout]

/-- Witness for C1: the spec scenario — items {ok, Book, 100} and
{bad, FAIL, 50}, where the "FAIL" charge fails — ends Compensated, "ok"
refunded, and the error details list exactly ["bad"]. -/
theorem partial_failure_compensates_witness :
    (∃ it ∈ chargeFanout ChargeLineItemActivity
        [⟨"ok", "Book", 100, ItemPending⟩, ⟨"bad", "FAIL", 50, ItemPending⟩],
        it.Status = ItemFailed) ∧
    (∃ it ∈ chargeFanout ChargeLineItemActivity
        [⟨"ok", "Book", 100, ItemPending⟩, ⟨"bad", "FAIL", 50, ItemPending⟩],
        it.Status = ItemCharged) ∧
    (runChargingPhase ChargeLineItemActivity true
      (Bill.mk "w1" BillCharging currency.Currency.USD
        [⟨"ok", "Book", 100, ItemPending⟩, ⟨"bad", "FAIL", 50, ItemPending⟩]
        150)).bill.Status = BillCompensated ∧
    (runChargingPhase ChargeLineItemActivity true
      (Bill.mk "w1" BillCharging currency.Currency.USD
        [⟨"ok", "Book", 100, ItemPending⟩, ⟨"bad", "FAIL", 50, ItemPending⟩]
        150)).bill.Items =
      [⟨"ok", "Book", 100, ItemRefunded⟩, ⟨"bad", "FAIL", 50, ItemFailed⟩] ∧
    (runChargingPhase ChargeLineItemActivity true
      (Bill.mk "w1" BillCharging currency.Currency.USD
        [⟨"ok", "Book", 100, ItemPending⟩, ⟨"bad", "FAIL", 50, ItemPending⟩]
        150)).err =
      some { kind := "ChargeCompensated", details := ["bad"] } := by
  have h := partial_failure_compensates
    (Bill.mk "w1" BillCharging currency.Currency.USD
      [⟨"ok", "Book", 100, ItemPending⟩, ⟨"bad", "FAIL", 50, ItemPending⟩] 150)
    ChargeLineItemActivity true (by decide) (by decide)
  refine ⟨by decide, by decide, h.1, ?_, ?_⟩
  · rw [h.2.1]
    decide
  · rw [h.2.2.2.2.2.1]
    decide

/-- C2. All-failed: when every item ends the fan-out Failed (and the bill
has at least one item), the bill status becomes Failed, no refund and no
credit is issued, and the workflow returns a "ChargeFailed" error
listing every item's identifier; that kind differs from the
partial-failure kind "ChargeCompensated". -/
theorem all_failed_bill_fails (b : Bill) (chargeOk : LineItem → Bool) (creditOk : Bool)
    (hne : b.Items ≠ [])
    (hall : ∀ it ∈ chargeFanout chargeOk b.Items, it.Status = ItemFailed) :
    (runChargingPhase chargeOk creditOk b).bill.Status = BillFailed ∧
    (runChargingPhase chargeOk creditOk b).refundedItems = [] ∧
    (runChargingPhase chargeOk creditOk b).credits = [] ∧
    (runChargingPhase chargeOk creditOk b).err =
      some { kind := "ChargeFailed", details := b.Items.map (·.ID) } ∧
    "ChargeFailed" ≠ "ChargeCompensated" := by
  have hcnt : (chargeFanout chargeOk b.Items).countP (fun it => it.Status == ItemFailed)
      = (chargeFanout chargeOk b.Items).length :=
    List.countP_eq_length.mpr (fun it hm => by simp [hall it hm])
  simp only [runChargingPhase, if_pos hcnt]
  refine ⟨trivial, trivial, trivial, ?_, by decide⟩
  rw [chargeFanout_ids]

/-- Witness for C2: two always-failing items end with bill status Failed
and an error naming both ids. -/
theorem all_failed_bill_fails_witness :
    (Bill.mk "w2" BillCharging currency.Currency.USD
      [⟨"a", "FAIL", 10, ItemPending⟩, ⟨"b", "FAIL", 20, ItemPending⟩] 30).Items ≠ [] ∧
    (∀ it ∈ chargeFanout ChargeLineItemActivity
      [⟨"a", "FAIL", 10, ItemPending⟩, ⟨"b", "FAIL", 20, ItemPending⟩],
      it.Status = ItemFailed) ∧
    (runChargingPhase ChargeLineItemActivity true
      (Bill.mk "w2" BillCharging currency.Currency.USD
        [⟨"a", "FAIL", 10, ItemPending⟩, ⟨"b", "FAIL", 20, ItemPending⟩]
        30)).bill.Status = BillFailed ∧
    (runChargingPhase ChargeLineItemActivity true
      (Bill.mk "w2" BillCharging currency.Currency.USD
        [⟨"a", "FAIL", 10, ItemPending⟩, ⟨"b", "FAIL", 20, ItemPending⟩]
        30)).refundedItems = [] ∧
    (runChargingPhase ChargeLineItemActivity true
      (Bill.mk "w2" BillCharging currency.Currency.USD
        [⟨"a", "FAIL", 10, ItemPending⟩, ⟨"b", "FAIL", 20, ItemPending⟩]
        30)).err = some { kind := "ChargeFailed", details := ["a", "b"] } := by
  have h := all_failed_bill_fails
    (Bill.mk "w2" BillCharging currency.Currency.USD
      [⟨"a", "FAIL", 10, ItemPending⟩, ⟨"b", "FAIL", 20, ItemPending⟩] 30)
    ChargeLineItemActivity true (by decide) (by decide)
  refine ⟨by decide, by decide, h.1, h.2.1, ?_⟩
  rw [h.2.2.2.1]
  decide

/-- C3. All-charged: when no item ends the fan-out Failed (and the bill
has at least one item), the bill status becomes Settled, exactly one
credit of the bill's gross total in the bill's currency is attempted, no
refund happens, no error is returned, the whole outcome is independent
of whether the credit succeeds, and each Pending item was sent to the
charge activity exactly once. -/
theorem settled_credit_best_effort (b : Bill) (chargeOk : LineItem → Bool) (creditOk : Bool)
    (hne : b.Items ≠ [])
    (hok : ∀ it ∈ chargeFanout chargeOk b.Items, it.Status ≠ ItemFailed) :
    (runChargingPhase chargeOk creditOk b).bill.Status = BillSettled ∧
    (runChargingPhase chargeOk creditOk b).credits = [(b.Total, b.Cur)] ∧
    (runChargingPhase chargeOk creditOk b).refundedItems = [] ∧
    (runChargingPhase chargeOk creditOk b).err = none ∧
    runChargingPhase chargeOk true b = runChargingPhase chargeOk false b ∧
    (runChargingPhase chargeOk creditOk b).chargedItems
      = b.Items.filter (fun it => it.Status == ItemPending) := by
  have hcnt : (chargeFanout chargeOk b.Items).countP (fun it => it.Status == ItemFailed) = 0 :=
    List.countP_eq_zero.mpr (fun it hm => by simp [hok it hm])
  have hlen : (chargeFanout chargeOk b.Items).length ≠ 0 := by
    intro h
    rw [chargeFanout, List.length_map] at h
    exact hne (List.length_eq_zero.mp h)
  have hneq : (chargeFanout chargeOk b.Items).countP (fun it => it.Status == ItemFailed)
      ≠ (chargeFanout chargeOk b.Items).length := by
    rw [hcnt]
    exact fun h => hlen h.symm
  simp only [runChargingPhase, if_neg hneq, if_pos hcnt]
  refine ⟨?_, ?_, ?_, ?_, ?_, ?_⟩ <;> trivial

/-- Witness for C3: two successfully charging items settle the bill and
attempt one credit of the gross total (200) in the bill's currency. -/
theorem settled_credit_best_effort_witness :
    (Bill.mk "w3" BillCharging currency.Currency.EUR
      [⟨"a1", "Book", 150, ItemPending⟩, ⟨"b2", "Pen", 50, ItemPending⟩] 200).Items ≠ [] ∧
    (∀ it ∈ chargeFanout ChargeLineItemActivity
      [⟨"a1", "Book", 150, ItemPending⟩, ⟨"b2", "Pen", 50, ItemPending⟩],
      it.Status ≠ ItemFailed) ∧
    (runChargingPhase ChargeLineItemActivity true
      (Bill.mk "w3" BillCharging currency.Currency.EUR
        [⟨"a1", "Book", 150, ItemPending⟩, ⟨"b2", "Pen", 50, ItemPending⟩]
        200)).bill.Status = BillSettled ∧
    (runChargingPhase ChargeLineItemActivity true
      (Bill.mk "w3" BillCharging currency.Currency.EUR
        [⟨"a1", "Book", 150, ItemPending⟩, ⟨"b2", "Pen", 50, ItemPending⟩]
        200)).credits = [(200, currency.Currency.EUR)] ∧
    runChargingPhase ChargeLineItemActivity true
      (Bill.mk "w3" BillCharging currency.Currency.EUR
        [⟨"a1", "Book", 150, ItemPending⟩, ⟨"b2", "Pen", 50, ItemPending⟩] 200)
      = runChargingPhase ChargeLineItemActivity false
      (Bill.mk "w3" BillCharging currency.Currency.EUR
        [⟨"a1", "Book", 150, ItemPending⟩, ⟨"b2", "Pen", 50, ItemPending⟩] 200) := by
  have h := settled_credit_best_effort
    (Bill.mk "w3" BillCharging currency.Currency.EUR
      [⟨"a1", "Book", 150, ItemPending⟩, ⟨"b2", "Pen", 50, ItemPending⟩] 200)
    ChargeLineItemActivity true (by decide) (by decide)
  exact ⟨by decide, by decide, h.1, h.2.1, h.2.2.2.2.1⟩

lemma addItem_items_cases (b : Bill) (li : LineItem) :
    (b.AddItem li).1.Items = b.Items ∨
      (b.AddItem li).1.Items = b.Items ++ [{ li with Status := ItemPending }] := by
  unfold Bill.AddItem
  split
  · exact Or.inl rfl
  · split
    · exact Or.inl rfl
    · exact Or.inr rfl

lemma addItem_ok_items (b : Bill) (li : LineItem) (h : (b.AddItem li).2 = none) :
    (b.AddItem li).1.Items = b.Items ++ [{ li with Status := ItemPending }] := by
  unfold Bill.AddItem at h ⊢
  by_cases h1 : b.Status ≠ BillOpen
  · rw [if_pos h1] at h
    simp at h
  · rw [if_neg h1] at h ⊢
    by_cases h2 : (b.Items.any fun it => it.ID == li.ID) = true
    · rw [if_pos h2] at h
      simp at h
    · rw [if_neg h2]

lemma beginCharge_ok_status (b : Bill) (h : (b.BeginCharge).2 = none) :
    (b.BeginCharge).1.Status = BillCharging := by
  unfold Bill.BeginCharge at h ⊢
  by_cases h1 : b.Status ≠ BillOpen
  · rw [if_pos h1] at h
    simp at h
  · rw [if_neg h1] at h ⊢
    by_cases h2 : b.PendingCount = 0
    · rw [if_pos h2] at h
      simp at h
    · rw [if_neg h2]

lemma beginCharge_ok_items (b : Bill) (h : (b.BeginCharge).2 = none) :
    (b.BeginCharge).1.Items = b.Items := by
  unfold Bill.BeginCharge at h ⊢
  by_cases h1 : b.Status ≠ BillOpen
  · rw [if_pos h1] at h
    simp at h
  · rw [if_neg h1] at h ⊢
    by_cases h2 : b.PendingCount = 0
    · rw [if_pos h2] at h
      simp at h
    · rw [if_neg h2]

lemma cancel_ok_status (b : Bill) (h : (b.Cancel).2 = none) :
    (b.Cancel).1.Status = BillCanceled := by
  unfold Bill.Cancel at h ⊢
  by_cases h1 : b.Status ≠ BillOpen
  · rw [if_pos h1] at h
    simp at h
  · rw [if_neg h1]

lemma loopStep_not_open (s : LoopState) (e : Signal) (h : s.bill.Status ≠ BillOpen) :
    loopStep s e = s := by
  unfold loopStep
  rw [if_neg h]

lemma foldl_loopStep_not_open (events : List Signal) (s : LoopState)
    (h : s.bill.Status ≠ BillOpen) : events.foldl loopStep s = s := by
  induction events with
  | nil => rfl
  | cons e es ih =>
    rw [List.foldl_cons, loopStep_not_open s e h]
    exact ih

lemma loopStep_open_pending (s : LoopState) (e : Signal)
    (h : s.bill.Status = BillOpen → ∀ it ∈ s.bill.Items, it.Status = ItemPending) :
    (loopStep s e).bill.Status = BillOpen →
      ∀ it ∈ (loopStep s e).bill.Items, it.Status = ItemPending := by
  by_cases hs : s.bill.Status = BillOpen
  · unfold loopStep
    rw [if_pos hs]
    cases e with
    | AddLineItem li =>
      intro _ it hmem
      simp only at hmem
      rcases addItem_items_cases s.bill li with hi | hi <;> rw [hi] at hmem
      · exact h hs it hmem
      · rcases List.mem_append.mp hmem with hm | hm
        · exact h hs it hm
        · rw [List.mem_singleton.mp hm]
    | ChargeBill =>
      simp only
      split
      · exact h
      · intro hopen
        rename_i hcond
        have hnone : (s.bill.BeginCharge).2 = none :=
          Option.not_isSome_iff_eq_none.mp hcond
        rw [beginCharge_ok_status s.bill hnone] at hopen
        exact absurd hopen (by simp)
    | CancelBill =>
      simp only
      split
      · exact h
      · intro hopen
        rename_i hcond
        have hnone : (s.bill.Cancel).2 = none :=
          Option.not_isSome_iff_eq_none.mp hcond
        rw [cancel_ok_status s.bill hnone] at hopen
        exact absurd hopen (by simp)
    | TimerFired =>
      simp only
      split
      · intro hopen
        exact absurd hopen (by simp [Bill.Expire])
      · exact h
  · rw [loopStep_not_open s e hs]
    exact h

lemma foldl_loopStep_open_pending (events : List Signal) (s : LoopState)
    (h : s.bill.Status = BillOpen → ∀ it ∈ s.bill.Items, it.Status = ItemPending) :
    (events.foldl loopStep s).bill.Status = BillOpen →
      ∀ it ∈ (events.foldl loopStep s).bill.Items, it.Status = ItemPending := by
  induction events generalizing s with
  | nil => exact h
  | cons e es ih =>
    rw [List.foldl_cons]
    exact ih (loopStep s e) (loopStep_open_pending s e h)

/-- C8. Leaving Open cancels the timer, and a bill that has left Open can
never expire: a loop iteration whose result is Charging or Canceled has
disarmed the timer; once the bill is not Open the loop processes nothing
(every stimulus leaves the state untouched and `Expire` is never
invoked); hence from Charging or Canceled the status never becomes
Expired. -/
theorem timer_cancel_no_expire (s : LoopState) (e : Signal) (events : List Signal) :
    (s.bill.Status = BillOpen →
      ((loopStep s e).bill.Status = BillCharging ∨
        (loopStep s e).bill.Status = BillCanceled) →
      (loopStep s e).timerActive = false) ∧
    (s.bill.Status ≠ BillOpen →
      events.foldl loopStep s = s ∧ expireInvoked s e = false) ∧
    ((s.bill.Status = BillCharging ∨ s.bill.Status = BillCanceled) →
      (events.foldl loopStep s).bill.Status ≠ BillExpired) := by
  have hnotopen : ∀ hs : s.bill.Status ≠ BillOpen,
      events.foldl loopStep s = s ∧ expireInvoked s e = false := by
    intro hs
    refine ⟨foldl_loopStep_not_open events s hs, ?_⟩
    cases e <;> simp [expireInvoked, hs]
  refine ⟨?_, hnotopen, ?_⟩
  · intro hs hcc
    unfold loopStep at *
    rw [if_pos hs] at *
    cases e with
    | AddLineItem li =>
      exfalso
      simp only at hcc
      rw [addItem_status] at hcc
      rw [hs] at hcc
      rcases hcc with hcc | hcc <;> simp at hcc
    | ChargeBill =>
      simp only at *
      by_cases hc : (s.bill.BeginCharge).2.isSome = true
      · rw [if_pos hc] at hcc
        rw [hs] at hcc
        rcases hcc with hcc | hcc <;> simp at hcc
      · rw [if_neg hc]
    | CancelBill =>
      simp only at *
      by_cases hc : (s.bill.Cancel).2.isSome = true
      · rw [if_pos hc] at hcc
        rw [hs] at hcc
        rcases hcc with hcc | hcc <;> simp at hcc
      · rw [if_neg hc]
    | TimerFired =>
      exfalso
      simp only at hcc
      split at hcc
      · rcases hcc with hcc | hcc <;> simp [Bill.Expire] at hcc
      · rw [hs] at hcc
        rcases hcc with hcc | hcc <;> simp at hcc
  · intro hcc
    have hs : s.bill.Status ≠ BillOpen := by
      rcases hcc with h | h <;> rw [h] <;> simp
    rw [(hnotopen hs).1]
    rcases hcc with h | h <;> rw [h] <;> simp

/-- Witness for C8: a successful charge on an Open one-item bill disarms
the timer, and from the resulting Charging state a later timer firing
changes nothing — the bill does not become Expired. -/
theorem timer_cancel_no_expire_witness :
    (LoopState.mk (Bill.mk "w8" BillOpen currency.Currency.USD
      [⟨"A", "x", 3, ItemPending⟩] 3) true).bill.Status = BillOpen ∧
    ((loopStep (LoopState.mk (Bill.mk "w8" BillOpen currency.Currency.USD
        [⟨"A", "x", 3, ItemPending⟩] 3) true) Signal.ChargeBill).bill.Status = BillCharging ∨
      (loopStep (LoopState.mk (Bill.mk "w8" BillOpen currency.Currency.USD
        [⟨"A", "x", 3, ItemPending⟩] 3) true) Signal.ChargeBill).bill.Status = BillCanceled) ∧
    (loopStep (LoopState.mk (Bill.mk "w8" BillOpen currency.Currency.USD
      [⟨"A", "x", 3, ItemPending⟩] 3) true) Signal.ChargeBill).timerActive = false ∧
    (LoopState.mk (Bill.mk "w8c" BillCharging currency.Currency.USD
      [⟨"A", "x", 3, ItemPending⟩] 3) false).bill.Status = BillCharging ∧
    ([Signal.TimerFired].foldl loopStep
      (LoopState.mk (Bill.mk "w8c" BillCharging currency.Currency.USD
        [⟨"A", "x", 3, ItemPending⟩] 3) false)).bill.Status ≠ BillExpired := by
  refine ⟨by decide, by decide, ?_, by decide, ?_⟩
  · exact (timer_cancel_no_expire
      (LoopState.mk (Bill.mk "w8" BillOpen currency.Currency.USD
        [⟨"A", "x", 3, ItemPending⟩] 3) true) Signal.ChargeBill []).1 (by decide) (by decide)
  · exact (timer_cancel_no_expire
      (LoopState.mk (Bill.mk "w8c" BillCharging currency.Currency.USD
        [⟨"A", "x", 3, ItemPending⟩] 3) false) Signal.TimerFired
      [Signal.TimerFired]).2.2 (Or.inl (by decide))

/-- C9. The caller-supplied status of an added line item is ignored: a
successful `AddItem` stores the item with status Pending. Consequently,
along any event-loop run from a fresh bill, while the bill is Open every
item is Pending, and a successful `BeginCharge` enters Charging with the
item list unchanged — all items Pending. -/
theorem open_items_pending :
    (∀ (b : Bill) (li : LineItem), (b.AddItem li).2 = none →
      (b.AddItem li).1.Items = b.Items ++ [{ li with Status := ItemPending }]) ∧
    (∀ (billID : String) (cur : currency.Currency) (events : List Signal),
      (events.foldl loopStep ⟨initialBill billID cur, true⟩).bill.Status = BillOpen →
      ∀ it ∈ (events.foldl loopStep ⟨initialBill billID cur, true⟩).bill.Items,
        it.Status = ItemPending) ∧
    (∀ b : Bill, (∀ it ∈ b.Items, it.Status = ItemPending) →
      (b.BeginCharge).2 = none →
      (b.BeginCharge).1.Status = BillCharging ∧
      ∀ it ∈ (b.BeginCharge).1.Items, it.Status = ItemPending) := by
  refine ⟨addItem_ok_items, ?_, ?_⟩
  · intro billID cur events
    exact foldl_loopStep_open_pending events ⟨initialBill billID cur, true⟩
      (by intro _ it hmem; simp [initialBill] at hmem)
  · intro b hall hok
    refine ⟨beginCharge_ok_status b hok, ?_⟩
    rw [beginCharge_ok_items b hok]
    exact hall

/-- Witness for C9: adding an item that claims to be Charged to a fresh
bill stores it as Pending, and the loop state after that add has every
item Pending while still Open. -/
theorem open_items_pending_witness :
    ((initialBill "b9" currency.Currency.USD).AddItem ⟨"a", "Book", 5, ItemCharged⟩).2
      = none ∧
    ((initialBill "b9" currency.Currency.USD).AddItem ⟨"a", "Book", 5, ItemCharged⟩).1.Items
      = [⟨"a", "Book", 5, ItemPending⟩] ∧
    ([Signal.AddLineItem ⟨"a", "Book", 5, ItemCharged⟩].foldl loopStep
      ⟨initialBill "b9" currency.Currency.USD, true⟩).bill.Status = BillOpen ∧
    (∀ it ∈ ([Signal.AddLineItem ⟨"a", "Book", 5, ItemCharged⟩].foldl loopStep
      ⟨initialBill "b9" currency.Currency.USD, true⟩).bill.Items,
      it.Status = ItemPending) := by
  refine ⟨by decide, ?_, by decide, ?_⟩
  · have h := open_items_pending.1 (initialBill "b9" currency.Currency.USD)
      ⟨"a", "Book", 5, ItemCharged⟩ (by decide)
    simpa using h
  · exact open_items_pending.2.1 "b9" currency.Currency.USD
      [Signal.AddLineItem ⟨"a", "Book", 5, ItemCharged⟩] (by decide)

end billing

namespace account

open currency

/-- C10. `Withdraw` returns an error — and leaves every balance exactly
as it was — whenever the currency fails to parse, the amount is not
strictly positive, or the amount exceeds the balance of the requested
currency; consequently, if no balance is negative before a `Withdraw`,
none is negative after it. -/
theorem withdraw_no_negative (balances : Currency → Int) (curr : String) (amount : Int) :
    ((Withdraw balances curr amount).2.isSome = true →
      (Withdraw balances curr amount).1 = balances) ∧
    (amount ≤ 0 → (Withdraw balances curr amount).2.isSome = true) ∧
    (∀ c, Parse curr = .ok c → balances c < amount →
      (Withdraw balances curr amount).2.isSome = true) ∧
    ((∀ c, 0 ≤ balances c) → ∀ c, 0 ≤ (Withdraw balances curr amount).1 c) := by
  unfold Withdraw
  rcases hp : Parse curr with e | reqCur <;> dsimp only
  · refine ⟨fun _ => rfl, fun _ => rfl, ?_, fun h c => h c⟩
    intro c hc
    exact absurd hc (by simp)
  · by_cases h1 : amount ≤ 0
    · rw [if_pos h1]
      exact ⟨fun _ => rfl, fun _ => rfl, fun _ _ _ => rfl, fun h c => h c⟩
    · rw [if_neg h1]
      by_cases h2 : balances reqCur < amount
      · rw [if_pos h2]
        exact ⟨fun _ => rfl, fun hle => absurd hle h1, fun _ _ _ => rfl, fun h c => h c⟩
      · rw [if_neg h2]
        refine ⟨fun hs => by simp at hs, fun hle => absurd hle h1, ?_, ?_⟩
        · intro c hc hlt
          cases hc
          exact absurd hlt h2
        · intro h c
          dsimp only
          by_cases hc : c = reqCur
          · rw [if_pos hc]
            have := h reqCur
            omega
          · rw [if_neg hc]
            exact h c

/-- Witness for C10: on a ledger holding 10 USD, withdrawing 15 USD
fails and changes nothing, withdrawing a non-positive amount fails, and
after any of these calls every balance is still non-negative. -/
theorem withdraw_no_negative_witness :
    ((Withdraw (fun _ => 10) "usd" 15).2.isSome = true →
      (Withdraw (fun _ => 10) "usd" 15).1 = fun _ => 10) ∧
    ((0 : Int) ≤ 0 → (Withdraw (fun _ => 10) "usd" 0).2.isSome = true) ∧
    (Parse "usd" = .ok Currency.USD → (10 : Int) < 15 →
      (Withdraw (fun _ => 10) "usd" 15).2.isSome = true) ∧
    ((∀ c : Currency, (0 : Int) ≤ 10) → ∀ c, 0 ≤ (Withdraw (fun _ => 10) "usd" 7).1 c) :=
  ⟨(withdraw_no_negative (fun _ => 10) "usd" 15).1,
    fun _ => (withdraw_no_negative (fun _ => 10) "usd" 0).2.1 (by decide),
    fun hp hlt => (withdraw_no_negative (fun _ => 10) "usd" 15).2.2.1 Currency.USD hp hlt,
    fun _ => (withdraw_no_negative (fun _ => 10) "usd" 7).2.2.2 (fun _ => by decide)⟩

end account
